import Mathlib

/-!
Verification of the escape-artist capture-and-publish pipeline
(`src/main.rs`) against its natural-language specification.

Rust strings are modelled as lists of Unicode scalar values (`RStr`);
Rust `char` and `u8`/`u16` values are modelled as `Nat`.  Each Lean
definition below is a direct translation of the correspondingly named
Rust item.
-/

/-- A Rust `String`, modelled as the list of its Unicode scalar values. -/
abbrev RStr := List Nat

/-- Turn a Lean string literal into an `RStr` (list of code points). -/
def str (s : String) : RStr := s.data.map Char.toNat

/-- Is `b` a UTF-8 continuation byte (`0x80..=0xBF`)? -/
def isCont (b : Nat) : Bool := 0x80 ≤ b && b ≤ 0xBF

/-- Valid range for the first continuation byte of a 3-byte sequence,
depending on the lead byte (`0xE0` and `0xED` are restricted). -/
def isCont3First (lead b : Nat) : Bool :=
  if lead = 0xE0 then 0xA0 ≤ b && b ≤ 0xBF
  else if lead = 0xED then 0x80 ≤ b && b ≤ 0x9F
  else isCont b

/-- Valid range for the first continuation byte of a 4-byte sequence,
depending on the lead byte (`0xF0` and `0xF4` are restricted). -/
def isCont4First (lead b : Nat) : Bool :=
  if lead = 0xF0 then 0x90 ≤ b && b ≤ 0xBF
  else if lead = 0xF4 then 0x80 ≤ b && b ≤ 0x8F
  else isCont b

/-- Rust's `String::from_utf8_lossy`: decode a byte list as UTF-8,
replacing each maximal invalid subsequence with U+FFFD, following the
error lengths of `core::str::Utf8Error` (the source calls this standard
library function on raw byte windows). -/
def utf8Lossy : List Nat → RStr
  | [] => []
  | b :: rest =>
    if b < 0x80 then b :: utf8Lossy rest
    else if 0xC2 ≤ b && b ≤ 0xDF then
      match rest with
      | [] => [0xFFFD]
      | b1 :: r1 =>
        if isCont b1 then ((b - 0xC0) * 64 + (b1 - 0x80)) :: utf8Lossy r1
        else 0xFFFD :: utf8Lossy (b1 :: r1)
    else if 0xE0 ≤ b && b ≤ 0xEF then
      match rest with
      | [] => [0xFFFD]
      | b1 :: r1 =>
        if isCont3First b b1 then
          match r1 with
          | [] => [0xFFFD]
          | b2 :: r2 =>
            if isCont b2 then
              ((b - 0xE0) * 4096 + (b1 - 0x80) * 64 + (b2 - 0x80)) :: utf8Lossy r2
            else 0xFFFD :: utf8Lossy (b2 :: r2)
        else 0xFFFD :: utf8Lossy (b1 :: r1)
    else if 0xF0 ≤ b && b ≤ 0xF4 then
      match rest with
      | [] => [0xFFFD]
      | b1 :: r1 =>
        if isCont4First b b1 then
          match r1 with
          | [] => [0xFFFD]
          | b2 :: r2 =>
            if isCont b2 then
              match r2 with
              | [] => [0xFFFD]
              | b3 :: r3 =>
                if isCont b3 then
                  ((b - 0xF0) * 262144 + (b1 - 0x80) * 4096 +
                    (b2 - 0x80) * 64 + (b3 - 0x80)) :: utf8Lossy r3
                else 0xFFFD :: utf8Lossy (b3 :: r3)
            else 0xFFFD :: utf8Lossy (b2 :: r2)
        else 0xFFFD :: utf8Lossy (b1 :: r1)
    else 0xFFFD :: utf8Lossy rest

/-- Rust's `str::replace`: replace every non-overlapping occurrence of
`pat` in `s` with `rep`, scanning left to right (the source calls this
with the one-character pattern `"\x1b"`). -/
def rustReplace (pat rep : RStr) : RStr → RStr
  | [] => []
  | c :: rest =>
    if pat ≠ [] ∧ (c :: rest).take pat.length = pat then
      rep ++ rustReplace pat rep ((c :: rest).drop pat.length)
    else
      c :: rustReplace pat rep rest
termination_by s => s.length
decreasing_by
  · simp only [List.length_drop, List.length_cons]
    have : 0 < pat.length := List.length_pos.mpr (by tauto)
    omega
  · simp

/-- `sanitize_raw_bytes` from the source: UTF-8-lossy decode, then
replace the ESC character (0x1B) with the four literal characters
`\x1b`. -/
def sanitize_raw_bytes (raw_bytes : List Nat) : RStr :=
  rustReplace [0x1B] (str "\\x1b") (utf8Lossy raw_bytes)

/-- Decimal rendering of a number, as the Rust `Display` formatting used
by `format!` and `to_string` on integer parameters. -/
def natToStr (n : Nat) : RStr := (toString n).data.map Char.toNat

/-- The `VteEvent` enum from the source: one constructor per callback of
the external parser's `Perform` trait.  `char` and `u8`/`u16` values are
code points / byte values as `Nat`. -/
inductive VteEvent where
  | Print (c : Nat)
  | Execute (byte : Nat)
  | Hook (params : List (List Nat)) (intermediates : List Nat)
      ( ignore : Bool) (c : Nat) (raw_bytes : List Nat)
  | Put (byte : Nat) (raw_bytes : List Nat)
  | Unhook (raw_bytes : List Nat)
  | OscDispatch (params : List (List Nat)) (bell_terminated : Bool)
      (raw_bytes : List Nat)
  | CsiDispatch (params : List (List Nat)) (intermediates : List Nat)
      ( ignore : Bool) (c : Nat) (raw_bytes : List Nat)
  | EscDispatch (intermediates : List Nat) ( ignore : Bool) (byte : Nat)
      (raw_bytes : List Nat)
  deriving DecidableEq, Repr

/-- The `VteEventDto` enum from the source: the UI-facing display event.
Its only constructors are `Print` (carrying just the coalesced string),
`GenericEscape` and `LineBreak`. -/
inductive VteEventDto where
  | Print (string : RStr)
  | GenericEscape (title : RStr) (tooltip : Option RStr) (raw_bytes : RStr)
  | LineBreak (title : RStr)
  deriving DecidableEq, Repr

/-- `move_cursor` from the source (`c` is the final CSI character). -/
def move_cursor (c : Nat) (params : List Nat) : Option RStr :=
  match params with
  | [n] =>
    if c = 65 then some (str "Move cursor " ++ natToStr n ++ str " rows up")
    else if c = 66 then some (str "Move cursor " ++ natToStr n ++ str " rows down")
    else if c = 67 then some (str "Move cursor " ++ natToStr n ++ str " columns right")
    else if c = 68 then some (str "Move cursor " ++ natToStr n ++ str " columns left")
    else if c = 69 then some (str "Move cursor " ++ natToStr n ++ str " rows down, to column 1")
    else if c = 70 then some (str "Move cursor " ++ natToStr n ++ str " rows up, to column 1")
    else none
  | _ => none

/-- `csi_h` from the source (private-use set-mode sequences). -/
def csi_h (params : List Nat) (intermediates : List Nat) : Option RStr :=
  let actions : List RStr :=
    if intermediates.contains 63 then
      (if params.contains 1 then [str "Application Cursor Keys"] else []) ++
      (if params.contains 25 then [str "Show cursor"] else []) ++
      (if params.contains 47 then [str "Save screen"] else []) ++
      (if params.contains 1049 then [str "Enable the alternative buffer"] else []) ++
      (if params.contains 2004 then [str "Enable bracketed paste mode"] else [])
    else []
  if actions = [] then none else some (List.intercalate (str ". ") actions)

/-- `csi_H` from the source (cursor positioning). -/
def csi_H (params : List Nat) : Option RStr :=
  let actions : List RStr :=
    match params with
    | [] => [str "Move cursor to top left corner (0,0)"]
    | [row] => [str "Move cursor to (" ++ natToStr row ++ str ",0)"]
    | [row, column] =>
      [str "Move cursor to (" ++ natToStr row ++ str ", " ++ natToStr column ++ str ")"]
    | _ => []
  if actions = [] then none else some (List.intercalate (str ". ") actions)

/-- `csi_l` from the source (private-use reset-mode sequences). -/
def csi_l (params : List Nat) (intermediates : List Nat) : Option RStr :=
  let actions : List RStr :=
    if intermediates.contains 63 then
      (if params.contains 1 then [str "Reset Cursor Keys"] else []) ++
      (if params.contains 12 then [str "Stop blinking cursor"] else []) ++
      (if params.contains 25 then [str "Hide cursor"] else []) ++
      (if params.contains 47 then [str "Restore screen"] else []) ++
      (if params.contains 1049 then [str "Disable the alternative buffer"] else []) ++
      (if params.contains 2004 then [str "Disable bracketed paste mode"] else [])
    else []
  if actions = [] then none else some (List.intercalate (str ". ") actions)

/-- `csi_n` from the source (device status report). -/
def csi_n (params : List Nat) : Option RStr :=
  let actions : List RStr :=
    if params.contains 6 then [str "Query cursor position"] else []
  if actions = [] then none else some (List.intercalate (str ". ") actions)

/-- `csi_J` from the source (erase in display). -/
def csi_J (params : List Nat) : Option RStr :=
  let actions : List RStr :=
    (if params.isEmpty || params.contains 0 then [str "Clear from cursor to end of screen"] else []) ++
    (if params.contains 1 then [str "Clear from cursor to start of screen"] else []) ++
    (if params.contains 2 then [str "Clear entire screen"] else []) ++
    (if params.contains 3 then [str "Clear saved lines"] else [])
  if actions = [] then none else some (List.intercalate (str ". ") actions)

/-- `csi_K` from the source (erase in line). -/
def csi_K (params : List Nat) : Option RStr :=
  let actions : List RStr :=
    (if params.isEmpty || params.contains 0 then [str "Clear from cursor to end of line"] else []) ++
    (if params.contains 1 then [str "Clear from start of line to cursor"] else []) ++
    (if params.contains 2 then [str "Clear entire line"] else [])
  if actions = [] then none else some (List.intercalate (str ". ") actions)

/-- The four accumulator vectors of the `sgr` function. -/
structure SgrAcc where
  foreground_colors : List RStr
  background_colors : List RStr
  attributes : List RStr
  reset_attributes : List RStr
  deriving DecidableEq, Repr

def SgrAcc.fg (acc : SgrAcc) (s : String) : SgrAcc :=
  { acc with foreground_colors := acc.foreground_colors ++ [str s] }

def SgrAcc.bg (acc : SgrAcc) (s : String) : SgrAcc :=
  { acc with background_colors := acc.background_colors ++ [str s] }

def SgrAcc.attr (acc : SgrAcc) (s : String) : SgrAcc :=
  { acc with attributes := acc.attributes ++ [str s] }

def SgrAcc.resetAttr (acc : SgrAcc) (s : String) : SgrAcc :=
  { acc with reset_attributes := acc.reset_attributes ++ [str s] }

/-- The tooltip assembly at the end of `sgr`. -/
def sgrFinish (acc : SgrAcc) : Option RStr :=
  let tooltip : RStr :=
    (if acc.attributes ≠ [] then
      str "Set text to " ++ List.intercalate (str ", ") acc.attributes ++ str ". "
     else []) ++
    (if acc.reset_attributes ≠ [] then
      str "Reset " ++ List.intercalate (str "/") acc.reset_attributes ++ str " text attributes. "
     else []) ++
    (if acc.foreground_colors ≠ [] then
      str "Set foreground color to " ++
        List.intercalate (str ", ") acc.foreground_colors ++ str ". "
     else []) ++
    (if acc.background_colors ≠ [] then
      str "Set background color to " ++
        List.intercalate (str ", ") acc.background_colors ++ str ". "
     else [])
  if tooltip = [] then none else some tooltip

/-- The accumulator update performed by one arm of the `sgr` match for
every parameter other than 0 (early return) and 38/48 (custom colours,
which also consume later parameters): push the attribute or colour text
for the parameter value, or do nothing for an unrecognised value
(`_ => continue` in the source). -/
def sgrUpdate (acc : SgrAcc) (v : Nat) : SgrAcc :=
  match v with
  | 1 => acc.attr "bold"
  | 2 => acc.attr "dim"
  | 3 => acc.attr "italic"
  | 4 => acc.attr "underline"
  | 5 => acc.attr "blink"
  | 7 => acc.attr "reverse"
  | 8 => acc.attr "hidden"
  | 9 => acc.attr "strikethrough"
  | 22 => acc.resetAttr "bold/dim"
  | 23 => acc.resetAttr "italic"
  | 24 => acc.resetAttr "underline"
  | 25 => acc.resetAttr "blink"
  | 27 => acc.resetAttr "reverse"
  | 28 => acc.resetAttr "hidden"
  | 29 => acc.resetAttr "strikethrough"
  | 30 => acc.fg "black"
  | 31 => acc.fg "red"
  | 32 => acc.fg "green"
  | 33 => acc.fg "yellow"
  | 34 => acc.fg "blue"
  | 35 => acc.fg "magenta"
  | 36 => acc.fg "cyan"
  | 37 => acc.fg "white"
  | 39 => acc.fg "default"
  | 40 => acc.bg "black"
  | 41 => acc.bg "red"
  | 42 => acc.bg "green"
  | 43 => acc.bg "yellow"
  | 44 => acc.bg "blue"
  | 45 => acc.bg "magenta"
  | 46 => acc.bg "cyan"
  | 47 => acc.bg "white"
  | 49 => acc.bg "default"
  | 90 => acc.fg "bright black"
  | 91 => acc.fg "bright red"
  | 92 => acc.fg "bright green"
  | 93 => acc.fg "bright yellow"
  | 94 => acc.fg "bright blue"
  | 95 => acc.fg "bright magenta"
  | 96 => acc.fg "bright cyan"
  | 97 => acc.fg "bright white"
  | 100 => acc.bg "bright black"
  | 101 => acc.bg "bright red"
  | 102 => acc.bg "bright green"
  | 103 => acc.bg "bright yellow"
  | 104 => acc.bg "bright blue"
  | 105 => acc.bg "bright magenta"
  | 106 => acc.bg "bright cyan"
  | 107 => acc.bg "bright white"
  | _ => acc

/-- The parameter loop of `sgr`.  Each parameter is a `Vec<u16>` whose
first entry is the parameter proper (the source reads `param[0]`; the
parser never produces an empty parameter vector, and the model reads 0
for an empty one).  Parameter 0 returns the reset tooltip immediately;
parameters 38 and 48 push the custom-colour text and consume the
following parameters that encode the custom colour, exactly as the
iterator `next()` calls in the source do; every other parameter only
updates the accumulators (`sgrUpdate`). -/
def sgrLoop (acc : SgrAcc) : List (List Nat) → Option RStr
  | [] => sgrFinish acc
  | p :: rest =>
    let v := p.headD 0
    if v = 0 then some (str "Reset all modes (styles and colours)")
    else if v = 38 then
      match rest with
      | [] => sgrLoop (acc.fg "custom value") []
      | next :: tail =>
        if next.headD 0 = 5 then sgrLoop (acc.fg "custom value") (tail.drop 1)
        else if next.headD 0 = 2 then sgrLoop (acc.fg "custom value") (tail.drop 3)
        else sgrLoop (acc.fg "custom value") (next :: tail)
    else if v = 48 then
      match rest with
      | [] => sgrLoop (acc.bg "custom value") []
      | next :: tail =>
        if next.headD 0 = 5 then sgrLoop (acc.bg "custom value") (tail.drop 1)
        else if next.headD 0 = 2 then sgrLoop (acc.bg "custom value") (tail.drop 3)
        else sgrLoop (acc.bg "custom value") (next :: tail)
    else sgrLoop (sgrUpdate acc v) rest
termination_by l => l.length
decreasing_by
  all_goals simp only [List.length_drop, List.length_cons, List.length_nil]
  all_goals omega

/-- `sgr` from the source: tooltip for an SGR (CSI ... m) sequence. -/
def sgr (params : List (List Nat)) : Option RStr := sgrLoop ⟨[], [], [], []⟩ params

/-- `osc_front_end` from the source: classify an OSC dispatch.  Each raw
parameter is decoded with `String::from_utf8_lossy` before matching. -/
def osc_front_end (params : List (List Nat)) (_bell_terminated : Bool)
    (raw_bytes : List Nat) : VteEventDto :=
  if params.isEmpty then
    .GenericEscape (str "OSC") none (sanitize_raw_bytes raw_bytes)
  else
    let decoded := params.map utf8Lossy
    let first := decoded.headD []
    if first = str "0" ∧ decoded.length > 1 then
      .GenericEscape (str "OSC " ++ first)
        (some (str "Set icon name and window title to '" ++ decoded.getD 1 [] ++ str "'"))
        (sanitize_raw_bytes raw_bytes)
    else if first = str "1" ∧ decoded.length > 1 then
      .GenericEscape (str "OSC " ++ first)
        (some (str "Set icon name to '" ++ decoded.getD 1 [] ++ str "'"))
        (sanitize_raw_bytes raw_bytes)
    else if first = str "2" ∧ decoded.length > 1 then
      .GenericEscape (str "OSC " ++ first)
        (some (str "Set window title to '" ++ decoded.getD 1 [] ++ str "'"))
        (sanitize_raw_bytes raw_bytes)
    else if first = str "133" ∧ decoded.length > 1 then
      let second := decoded.getD 1 []
      let pair : RStr × Option RStr :=
        if second = str "A" then (str "Pre-prompt", some (str "OSC 133 pre-prompt marker"))
        else if second = str "B" then (str "Post-prompt", some (str "OSC 133 post-prompt marker"))
        else if second = str "C" then (str "Pre-input", some (str "OSC 133 pre-input marker"))
        else if second = str "D" then (str "Post-input", some (str "OSC 133 post-input marker"))
        else (str "OSC 133", none)
      .GenericEscape pair.1 pair.2 (sanitize_raw_bytes raw_bytes)
    else
      .GenericEscape (str "OSC " ++ first) none (sanitize_raw_bytes raw_bytes)

/-- `other_escape_front_end` from the source: classify an ESC dispatch
by its final byte. -/
def other_escape_front_end (byte : Nat) (raw_bytes : List Nat) : VteEventDto :=
  let pair : RStr × Option RStr :=
    if byte = 99 then (str "RIS", some (str "Reset to initial state"))
    else if byte = 55 then (str "DECSC", some (str "Save Cursor Position"))
    else if byte = 56 then (str "DECRC", some (str "Restore Cursor Position"))
    else (str "Other", none)
  .GenericEscape pair.1 pair.2 (sanitize_raw_bytes raw_bytes)

/-- `csi_front_end` from the source: classify a CSI dispatch.  `ascii`
is the intermediates, the `;`-joined (and `,`-joined for subparameters)
parameter list, and the final character; the tooltip dispatches on the
final character. -/
def csi_front_end (params : List (List Nat)) (intermediates : List Nat)
    (_ignore : Bool) (c : Nat) (raw_bytes : List Nat) : VteEventDto :=
  let ascii : RStr :=
    intermediates ++
    List.intercalate (str ";")
      (params.map (fun p => List.intercalate (str ",") (p.map natToStr))) ++ [c]
  let params_without_subparams : List Nat := params.filterMap List.head?
  let tooltip : Option RStr :=
    match c with
    | 65 | 66 | 67 | 68 | 69 | 70 => move_cursor c params_without_subparams
    | 104 => csi_h params_without_subparams intermediates
    | 72 => csi_H params_without_subparams
    | 74 => csi_J params_without_subparams
    | 75 => csi_K params_without_subparams
    | 108 => csi_l params_without_subparams intermediates
    | 109 => sgr params
    | 110 => csi_n params_without_subparams
    | _ => none
  .GenericEscape (str "CSI " ++ ascii) tooltip (sanitize_raw_bytes raw_bytes)

/-- The `From<&VteEvent> for VteEventDto` conversion from the source.
Note the `Execute` branch: byte 10 (line feed) is mapped to the title
`"CR"` and byte 13 (carriage return) to the title `"LF"`. -/
def dtoOfEvent : VteEvent → VteEventDto
  | .Print c => .Print [c]
  | .Execute byte =>
    if byte = 10 then .LineBreak (str "CR")
    else if byte = 13 then .LineBreak (str "LF")
    else
      let s := sanitize_raw_bytes [byte]
      .GenericEscape (str "Execute " ++ s) none s
  | .Hook _ _ _ _ raw_bytes =>
    .GenericEscape (str "Hook") none (sanitize_raw_bytes raw_bytes)
  | .Put _ raw_bytes =>
    .GenericEscape (str "Put") none (sanitize_raw_bytes raw_bytes)
  | .Unhook raw_bytes =>
    .GenericEscape (str "Unhook") none (sanitize_raw_bytes raw_bytes)
  | .OscDispatch params bell raw_bytes => osc_front_end params bell raw_bytes
  | .CsiDispatch params intermediates ig c raw_bytes =>
    csi_front_end params intermediates ig c raw_bytes
  | .EscDispatch _ _ byte raw_bytes => other_escape_front_end byte raw_bytes

/-- The observable state of the `Performer` together with the parts of
`AppState` it writes: the pending raw-byte window, the shared event
history (`all_events`) and the sequence of DTOs sent over the broadcast
channel. -/
structure PerformerState where
  curr_cmd_bytes : List Nat
  all_events : List VteEvent
  sent : List VteEventDto
  deriving DecidableEq, Repr

/-- `Performer::log` from the source: send the DTO on the broadcast
channel, push the event onto the shared history, clear the byte
window.  No coalescing is performed here: every logged event becomes
its own history entry. -/
def Performer.log (event : VteEvent) (st : PerformerState) : PerformerState :=
  { curr_cmd_bytes := []
    all_events := st.all_events ++ [event]
    sent := st.sent ++ [dtoOfEvent event] }

/-- `Perform::print` from the source. -/
def Performer.print (c : Nat) (st : PerformerState) : PerformerState :=
  Performer.log (.Print c) st

/-- `Perform::execute` from the source. -/
def Performer.execute (byte : Nat) (st : PerformerState) : PerformerState :=
  Performer.log (.Execute byte) st

/-- The empty initial state (`curr_cmd_bytes: Vec::new()`, empty
history, nothing broadcast). -/
def initState : PerformerState := ⟨[], [], []⟩

/-- Feed a list of already-parsed actions to the performer, as the
parser thread does one action at a time. -/
def processEvents (evs : List VteEvent) (st : PerformerState) : PerformerState :=
  evs.foldl (fun s e => Performer.log e s) st

/-- Modelled from the spec: the external `vte` parser state machine (an
external collaborator, not part of this repository).  Per the spec it
"emits one semantic Action per complete sequence, plus one per printable
codepoint and one per C0 control byte".  This model covers exactly the
escape-free byte streams used below: a printable ASCII byte
(`0x20..=0x7E`) yields a `print` action and any other byte a C0
`execute` action; it is faithful only for bytes `≤ 0x7E` other than ESC
(`0x1B`), which starts an escape sequence in the real parser.  As in the
source's read loop, each byte is pushed onto `curr_cmd_bytes` before the
parser is advanced. -/
def processByte (st : PerformerState) (b : Nat) : PerformerState :=
  let st1 := { st with curr_cmd_bytes := st.curr_cmd_bytes ++ [b] }
  if 0x20 ≤ b ∧ b ≤ 0x7E then Performer.print b st1
  else Performer.execute b st1

/-- Feed a raw byte stream through the modelled parser. -/
def processBytes (bytes : List Nat) (st : PerformerState) : PerformerState :=
  bytes.foldl processByte st

/-- The DTO a single escape-free byte gives rise to. -/
def dtoOfByte (b : Nat) : VteEventDto :=
  if 0x20 ≤ b ∧ b ≤ 0x7E then dtoOfEvent (.Print b) else dtoOfEvent (.Execute b)

/-- Are two adjacent entries of a history both `Print` events? -/
def hasAdjacentPrints : List VteEvent → Bool
  | .Print _ :: .Print _ :: _ => true
  | _ :: rest => hasAdjacentPrints rest
  | [] => false

/-- Rust's `slice::chunks`: successive chunks of `n` elements each, the
last chunk possibly shorter.  The source always calls it with `n = 100`;
`max 1` only guards the degenerate `n = 0` case, on which the Rust
function panics. -/
def chunks (n : Nat) : List α → List (List α)
  | [] => []
  | x :: xs => (x :: xs).take n :: chunks n ((x :: xs).drop (max 1 n))
termination_by l => l.length
decreasing_by simp only [List.length_drop, List.length_cons]; omega

/-- The `coalesce` closure from `stream_events` Phase A: merge two
adjacent items when both are `Print`, by concatenating their strings. -/
def coalesceAux : VteEventDto → List VteEventDto → List VteEventDto
  | x, [] => [x]
  | x, y :: rest =>
    match x, y with
    | .Print s1, .Print s2 => coalesceAux (.Print (s1 ++ s2)) rest
    | _, _ => x :: coalesceAux y rest

/-- `Itertools::coalesce` with the print-merging closure, as applied to
each chunk in `stream_events` Phase A. -/
def coalescePrints : List VteEventDto → List VteEventDto
  | [] => []
  | x :: rest => coalesceAux x rest

/-- Phase A of `stream_events`: the sequence of frames sent to a newly
connected subscriber — one frame per 100-event chunk of the history,
each frame the JSON array of the chunk's (coalesced) DTOs. -/
def replayFrames (events : List VteEvent) : List (List VteEventDto) :=
  (chunks 100 events).map (fun chunk => coalescePrints (chunk.map dtoOfEvent))

/-- `THROTTLE_DURATION` from `stream_events`, in milliseconds. -/
def THROTTLE_DURATION : Nat := 10

/-- The deadline initialisation in `stream_events` Phase B:
`next_send = Instant::now() + THROTTLE_DURATION`. -/
def nextSendInit (now : Nat) : Nat := now + THROTTLE_DURATION

/-- The deadline update after a send check in `stream_events` Phase B:
`next_send = Instant::now() + THROTTLE_DURATION`. -/
def nextSendAfterCheck (now : Nat) : Nat := now + THROTTLE_DURATION

/-- Outcome of the shell-resolution prefix of `main`: either a shell
path that is later passed to `spawn_command`, or a startup error
(`bail!`) that ends the process before any child is spawned. -/
inductive Launch where
  | spawned (shell : String)
  | startupError (msg : String)
  deriving DecidableEq, Repr

/-- The shell-resolution logic at the top of `main`: prefer the
`--shell` argument, then the `SHELL` environment variable, else bail
with a user-facing error.  `spawn_command` runs only after this
resolves to `spawned`. -/
def shell_path (cliShell : Option String) (envShell : Option String) : Launch :=
  match cliShell with
  | some s => .spawned s
  | none =>
    match envShell with
    | some path => .spawned path
    | none =>
      .startupError "SHELL environment variable not found; either set it or use --shell"

/-! ## Helper lemmas -/

lemma processBytes_cons (b : Nat) (bs : List Nat) (st : PerformerState) :
    processBytes (b :: bs) st = processBytes bs (processByte st b) := rfl

lemma processByte_printable (st : PerformerState) (b : Nat)
    (h1 : 32 ≤ b) (h2 : b ≤ 126) :
    processByte st b =
      Performer.log (.Print b) { st with curr_cmd_bytes := st.curr_cmd_bytes ++ [b] } := by
  simp [processByte, Performer.print, h1, h2]

lemma log_all_events (e : VteEvent) (st : PerformerState) :
    (Performer.log e st).all_events = st.all_events ++ [e] := rfl

lemma log_sent (e : VteEvent) (st : PerformerState) :
    (Performer.log e st).sent = st.sent ++ [dtoOfEvent e] := rfl

lemma processBytes_all_events_printable :
    ∀ (bs : List Nat) (st : PerformerState),
    (∀ b ∈ bs, 32 ≤ b ∧ b ≤ 126) →
    (processBytes bs st).all_events = st.all_events ++ bs.map VteEvent.Print := by
  intro bs
  induction bs with
  | nil => intro st _; simp [processBytes]
  | cons b rest ih =>
    intro st h
    have hb := h b (List.mem_cons_self _ _)
    rw [processBytes_cons, processByte_printable st b hb.1 hb.2,
      ih _ (fun x hx => h x (List.mem_cons_of_mem _ hx))]
    simp [Performer.log]

lemma processByte_sent (st : PerformerState) (b : Nat) :
    (processByte st b).sent = st.sent ++ [dtoOfByte b] := by
  by_cases hb : 32 ≤ b ∧ b ≤ 126
  · simp [processByte, dtoOfByte, hb, Performer.print, Performer.log]
  · simp [processByte, dtoOfByte, hb, Performer.execute, Performer.log]

lemma processBytes_sent :
    ∀ (bs : List Nat) (st : PerformerState),
    (processBytes bs st).sent = st.sent ++ bs.map dtoOfByte := by
  intro bs
  induction bs with
  | nil => intro st; simp [processBytes]
  | cons b rest ih =>
    intro st
    rw [processBytes_cons, ih]
    simp [processByte_sent]

lemma processEvents_append (xs ys : List VteEvent) (st : PerformerState) :
    processEvents (xs ++ ys) st = processEvents ys (processEvents xs st) :=
  List.foldl_append ..

/-! ## Claim theorems -/

/-- C1: the claim says byte 0x0A (line feed) is classified as
`LineBreak { title: "LF" }` and byte 0x0D (carriage return) as
`LineBreak { title: "CR" }`.  The source has the two labels swapped:
`Execute 10` yields title `"CR"` and `Execute 13` yields title `"LF"`.
Byte 0x0A is the line feed and 0x0D the carriage return by definition,
so the claim states the evident intent and the code is a slip (the spec
itself records that another revision of the source fixes exactly this
swap). -/
theorem C1_lf_cr_labels_swapped :
    dtoOfEvent (.Execute 10) = .LineBreak (str "CR") ∧
    dtoOfEvent (.Execute 13) = .LineBreak (str "LF") := by
  constructor <;> rfl

/-- C2 counterexample: the claim says no two adjacent history entries
are both `Print`.  Feeding the two printable bytes `"aa"` produces a
history of two adjacent `Print` entries — `Performer::log` appends one
entry per print action and never folds into the previous entry. -/
theorem C2_counterexample_adjacent_prints :
    (processBytes (str "aa") initState).all_events = [.Print 97, .Print 97] ∧
    hasAdjacentPrints (processBytes (str "aa") initState).all_events = true := by
  constructor <;> rfl

/-- C2 (amended): the classifier performs no print coalescing in the
history: every printable byte appends its own `Print` entry, so a burst
of N printable ASCII bytes yields N single-character history entries
(adjacent `Print` entries are ubiquitous); print coalescing happens only
in the subscriber fan-out. -/
theorem C2_no_history_coalescing (bs : List Nat)
    (h : ∀ b ∈ bs, 32 ≤ b ∧ b ≤ 126) :
    (processBytes bs initState).all_events = bs.map VteEvent.Print ∧
    (processBytes bs initState).all_events.length = bs.length := by
  have h2 := processBytes_all_events_printable bs initState h
  rw [show initState.all_events = [] from rfl, List.nil_append] at h2
  exact ⟨h2, by rw [h2]; simp⟩

/-- C2 witness: the amended theorem applied to the concrete input
`"ab"`. -/
theorem C2_witness :
    (∀ b ∈ str "ab", 32 ≤ b ∧ b ≤ 126) ∧
    (processBytes (str "ab") initState).all_events = (str "ab").map VteEvent.Print :=
  ⟨by decide, (C2_no_history_coalescing (str "ab") (by decide)).1⟩

/-- C3 counterexample: the claim says every classified `Print` carries
`color`/`bg_color` resolved from current colour state, so a `Print`
after `SGR 31` (foreground red) would differ from the same `Print` after
`SGR 0` (reset).  In the source the classified `Print` DTO is identical
(`Print { string: "a" }`) in both cases: the DTO type has no colour
fields and the classifier keeps no colour state. -/
theorem C3_counterexample_print_carries_no_color :
    (processEvents [.CsiDispatch [[31]] [] false 109 [27, 91, 51, 49, 109],
        .Print 97] initState).sent.getLast? = some (.Print (str "a")) ∧
    (processEvents [.CsiDispatch [[0]] [] false 109 [27, 91, 48, 109],
        .Print 97] initState).sent.getLast? = some (.Print (str "a")) := by
  constructor <;> simp [processEvents, Performer.log, dtoOfEvent, str]

/-- C3 (amended): a classified `Print` display event carries only the
printed string; there is no colour state, and the DTO produced for a
print action is independent of every previously classified action
(including any SGR action). -/
theorem C3_print_dto_ignores_prior_events (evs : List VteEvent) (c : Nat) :
    (processEvents (evs ++ [.Print c]) initState).sent =
      (processEvents evs initState).sent ++ [.Print [c]] := by
  rw [processEvents_append]
  simp [processEvents, Performer.log, dtoOfEvent]

/-- C4 counterexample: the claim says input `"a\nb"` yields five events
with `InvisibleLineBreak` separators around the line break.  The source
emits exactly three events and its DTO type has no `InvisibleLineBreak`
constructor at all (note also the swapped `"CR"` label, cf. C1). -/
theorem C4_counterexample_no_invisible_line_break :
    (processBytes (str "a\nb") initState).sent =
      [.Print (str "a"), .LineBreak (str "CR"), .Print (str "b")] ∧
    (processBytes (str "a\nb") initState).sent.length = 3 := by
  constructor <;> rfl

/-- C4 (amended): the classifier inserts no synthetic separator events
at line-break boundaries (the DTO type has no `InvisibleLineBreak`
case): every processed byte broadcasts exactly one classified DTO, so a
stream of N escape-free bytes yields exactly the N per-byte DTOs in
order.  (The hypothesis restricts to the byte range on which the parser
model is faithful.) -/
theorem C4_one_dto_per_byte (bs : List Nat)
    (_h : ∀ b ∈ bs, b ≤ 126 ∧ b ≠ 27) :
    (processBytes bs initState).sent = bs.map dtoOfByte := by
  have := processBytes_sent bs initState
  simpa [initState] using this

/-- C4 witness: the amended theorem applied to the concrete input
`"x\n"`. -/
theorem C4_witness :
    (∀ b ∈ str "x\n", b ≤ 126 ∧ b ≠ 27) ∧
    (processBytes (str "x\n") initState).sent = (str "x\n").map dtoOfByte :=
  ⟨by decide, C4_one_dto_per_byte (str "x\n") (by decide)⟩

/-- C5 counterexample: the claim says the batching deadline uses a
100 ms window; in the source `THROTTLE_DURATION` is 10 ms, so the
initial deadline for `now = 0` is 10, not 100. -/
theorem C5_counterexample_throttle_is_10ms :
    THROTTLE_DURATION = 10 ∧ nextSendInit 0 = 10 ∧ nextSendInit 0 ≠ 100 := by
  refine ⟨rfl, rfl, ?_⟩
  decide

/-- C5 (amended): in every subscriber's live-streaming phase the
batching deadline is initialised to now + 10 ms and reset to
now + 10 ms after each send check, so each subscriber is sent at most
one live frame per 10 ms window. -/
theorem C5_throttle_deadlines (now : Nat) :
    nextSendInit now = now + 10 ∧ nextSendAfterCheck now = now + 10 := by
  constructor <;> rfl

/-- C8: if no shell is supplied on the command line and `SHELL` is
unset, `main` bails with a user-facing error before any child is
spawned; if `SHELL` is set, its value becomes the spawned child. -/
theorem C8_shell_resolution :
    shell_path none none =
      .startupError "SHELL environment variable not found; either set it or use --shell" ∧
    ∀ p : String, shell_path none (some p) = .spawned p := by
  exact ⟨rfl, fun _ => rfl⟩

/-- The per-character substitution the sanitiser is claimed to perform:
ESC becomes the four literal characters `\x1b`, anything else is kept. -/
def escExpand (c : Nat) : RStr := if c = 27 then str "\\x1b" else [c]

lemma rustReplace_single (p : Nat) (rep : RStr) :
    ∀ s : RStr, rustReplace [p] rep s =
      s.flatMap (fun c => if c = p then rep else [c]) := by
  intro s
  induction s with
  | nil => simp [rustReplace]
  | cons c rest ih =>
    by_cases hc : c = p
    · subst hc
      rw [rustReplace]
      simp [ih]
    · rw [rustReplace]
      simp [hc, ih]

lemma sanitize_eq_bind (bs : List Nat) :
    sanitize_raw_bytes bs = (utf8Lossy bs).flatMap escExpand := by
  rw [sanitize_raw_bytes, rustReplace_single]
  rfl

/-- C6: for every byte sequence, the sanitised string is exactly the
UTF-8-lossy decoding of the bytes with each ESC character (27) expanded
to the four literal characters `\x1b` and every other character kept
unchanged — no other substitution. -/
theorem C6_sanitize_is_esc_expansion (bs : List Nat) :
    sanitize_raw_bytes bs = (utf8Lossy bs).flatMap escExpand ∧
    escExpand 27 = str "\\x1b" ∧ ∀ c, c ≠ 27 → escExpand c = [c] := by
  refine ⟨sanitize_eq_bind bs, rfl, fun c hc => ?_⟩
  simp [escExpand, hc]

/-- C6 witness: the theorem applied to the concrete bytes
`[27, 91, 109]` (ESC `[` `m`) and the character `91`. -/
theorem C6_witness :
    sanitize_raw_bytes [27, 91, 109] = (utf8Lossy [27, 91, 109]).flatMap escExpand ∧
    (91 ≠ 27 ∧ escExpand 91 = [91]) :=
  ⟨(C6_sanitize_is_esc_expansion [27, 91, 109]).1,
   by decide, (C6_sanitize_is_esc_expansion [27, 91, 109]).2.2 91 (by decide)⟩

lemma bind_escExpand_not_esc (l : RStr) : 27 ∉ l.flatMap escExpand := by
  induction l with
  | nil => simp
  | cons c rest ih =>
    simp only [List.flatMap_cons, List.mem_append]
    rintro (h | h)
    · by_cases hc : c = 27
      · subst hc; simp [escExpand, str] at h
      · simp [escExpand, hc] at h; exact hc h.symm
    · exact ih h

lemma count_bind_escExpand (l : RStr) (c : Nat) (hc : c ≠ 27)
    (hrep : c ∉ str "\\x1b") : (l.flatMap escExpand).count c = l.count c := by
  induction l with
  | nil => simp
  | cons d rest ih =>
    simp only [List.flatMap_cons, List.count_append, List.count_cons, ih]
    by_cases hd : d = 27
    · subst hd
      simp [escExpand, List.count_eq_zero_of_not_mem hrep, Ne.symm hc]
    · simp [escExpand, hd, List.count_cons, Nat.add_comm]

/-- C10: for every input byte sequence, the sanitised string contains no
ESC character (27), while every control character other than ESC that
survives UTF-8-lossy decoding occurs in the output exactly as often as
in the decoded text (i.e. unchanged, e.g. BEL = 7). -/
theorem C10_no_esc_in_sanitized (bs : List Nat) :
    27 ∉ sanitize_raw_bytes bs ∧
    ∀ c, c < 32 → c ≠ 27 →
      (sanitize_raw_bytes bs).count c = (utf8Lossy bs).count c := by
  rw [sanitize_eq_bind]
  refine ⟨bind_escExpand_not_esc _, fun c h32 hc => ?_⟩
  refine count_bind_escExpand _ c hc ?_
  intro hmem
  simp [str] at hmem
  omega

/-- C10 witness: the theorem applied to the concrete bytes
`[7, 27, 65]` (BEL, ESC, `A`) and the control character BEL = 7. -/
theorem C10_witness :
    27 ∉ sanitize_raw_bytes [7, 27, 65] ∧
    (sanitize_raw_bytes [7, 27, 65]).count 7 = (utf8Lossy [7, 27, 65]).count 7 :=
  ⟨(C10_no_esc_in_sanitized [7, 27, 65]).1,
   (C10_no_esc_in_sanitized [7, 27, 65]).2 7 (by decide) (by decide)⟩

lemma chunks_nil : chunks (α := α) 100 [] = [] := by rw [chunks]

lemma chunks_cons (x : α) (xs : List α) :
    chunks 100 (x :: xs) = (x :: xs).take 100 :: chunks 100 ((x :: xs).drop 100) := by
  rw [chunks]
  norm_num

lemma chunks_join_aux :
    ∀ (N : Nat) (l : List α), l.length ≤ N → (chunks 100 l).flatten = l := by
  intro N
  induction N with
  | zero =>
    intro l hl
    rw [List.length_eq_zero.mp (Nat.le_zero.mp hl), chunks_nil, List.flatten_nil]
  | succ N ih =>
    intro l hl
    match l with
    | [] => rw [chunks_nil, List.flatten_nil]
    | x :: xs =>
      simp only [List.length_cons] at hl
      rw [chunks_cons, List.flatten_cons,
        ih ((x :: xs).drop 100) (by simp only [List.length_drop, List.length_cons]; omega),
        List.take_append_drop]

lemma chunks_length_aux :
    ∀ (N : Nat) (l : List α), l.length ≤ N →
      (chunks 100 l).length = (l.length + 99) / 100 := by
  intro N
  induction N with
  | zero =>
    intro l hl
    rw [List.length_eq_zero.mp (Nat.le_zero.mp hl), chunks_nil]
    simp
  | succ N ih =>
    intro l hl
    match l with
    | [] => rw [chunks_nil]; simp
    | x :: xs =>
      simp only [List.length_cons] at hl
      rw [chunks_cons, List.length_cons,
        ih ((x :: xs).drop 100) (by simp only [List.length_drop, List.length_cons]; omega)]
      simp only [List.length_drop, List.length_cons]
      omega

lemma chunks_sizes_aux :
    ∀ (N : Nat) (l : List α), l.length ≤ N →
      ∀ ch ∈ chunks 100 l, ch ≠ [] ∧ ch.length ≤ 100 := by
  intro N
  induction N with
  | zero =>
    intro l hl ch hch
    rw [List.length_eq_zero.mp (Nat.le_zero.mp hl), chunks_nil] at hch
    exact absurd hch (List.not_mem_nil ch)
  | succ N ih =>
    intro l hl ch hch
    match l with
    | [] => rw [chunks_nil] at hch; exact absurd hch (List.not_mem_nil ch)
    | x :: xs =>
      simp only [List.length_cons] at hl
      rw [chunks_cons] at hch
      rcases List.mem_cons.mp hch with h | h
      · subst h
        refine ⟨by simp, ?_⟩
        simp only [List.length_take]
        omega
      · exact ih ((x :: xs).drop 100)
          (by simp only [List.length_drop, List.length_cons]; omega) ch h

lemma chunks_full_aux :
    ∀ (N : Nat) (l : List α), l.length ≤ N →
      ∀ ch ∈ (chunks 100 l).dropLast, ch.length = 100 := by
  intro N
  induction N with
  | zero =>
    intro l hl ch hch
    rw [List.length_eq_zero.mp (Nat.le_zero.mp hl), chunks_nil] at hch
    exact absurd hch (List.not_mem_nil ch)
  | succ N ih =>
    intro l hl ch hch
    match l with
    | [] => rw [chunks_nil] at hch; exact absurd hch (List.not_mem_nil ch)
    | x :: xs =>
      simp only [List.length_cons] at hl
      rw [chunks_cons] at hch
      by_cases hrest : chunks 100 ((x :: xs).drop 100) = []
      · rw [hrest] at hch
        exact absurd hch (List.not_mem_nil ch)
      · rw [List.dropLast_cons_of_ne_nil hrest] at hch
        rcases List.mem_cons.mp hch with h | h
        · subst h
          have hlong : 100 < xs.length + 1 := by
            by_contra hshort
            have hdrop : (x :: xs).drop 100 = [] :=
              List.drop_of_length_le (by simp only [List.length_cons]; omega)
            rw [hdrop, chunks_nil] at hrest
            exact hrest rfl
          simp only [List.length_take, List.length_cons]
          omega
        · exact ih ((x :: xs).drop 100)
            (by simp only [List.length_drop, List.length_cons]; omega) ch h

/-- C7: a newly connected subscriber's replay iterates the history in
chunks of 100 events — each chunk non-empty, of size at most 100, all
but the last of size exactly 100 — producing one frame per chunk, hence
ceil(N/100) frames, and the chunks concatenate back to the whole
history in order. -/
theorem C7_replay_in_chunks_of_100 (events : List VteEvent) :
    (chunks 100 events).flatten = events ∧
    (replayFrames events).length = (events.length + 99) / 100 ∧
    (∀ ch ∈ chunks 100 events, ch ≠ [] ∧ ch.length ≤ 100) ∧
    (∀ ch ∈ (chunks 100 events).dropLast, ch.length = 100) := by
  refine ⟨chunks_join_aux events.length events le_rfl, ?_,
    chunks_sizes_aux events.length events le_rfl,
    chunks_full_aux events.length events le_rfl⟩
  rw [replayFrames, List.length_map]
  exact chunks_length_aux events.length events le_rfl

/-- C7 witness: the theorem applied to a concrete one-event history,
whose replay is a single frame covering the single chunk. -/
theorem C7_witness :
    (chunks 100 [VteEvent.Print 97]).flatten = [VteEvent.Print 97] ∧
    (replayFrames [VteEvent.Print 97]).length = 1 ∧
    ([VteEvent.Print 97] ≠ [] ∧ ([VteEvent.Print 97] : List VteEvent).length ≤ 100) :=
  ⟨(C7_replay_in_chunks_of_100 [VteEvent.Print 97]).1,
   by
    have h := (C7_replay_in_chunks_of_100 [VteEvent.Print 97]).2.1
    simpa using h,
   (C7_replay_in_chunks_of_100 [VteEvent.Print 97]).2.2.1 [VteEvent.Print 97]
     (by rw [chunks_cons]; simp)⟩

/-- C9 counterexample: the claim says any parameter list containing a
parameter with first value 0 yields exactly the Reset tooltip.  For
`[[38], [5], [0]]` the extended-colour parameter 38 consumes the
following `5; 0` as its palette argument, so the 0 never reaches the
match and the tooltip is the custom-foreground text instead. -/
theorem C9_counterexample_zero_swallowed_by_38 :
    sgr [[38], [5], [0]] = some (str "Set foreground color to custom value. ") ∧
    sgr [[38], [5], [0]] ≠ some (str "Reset all modes (styles and colours)") := by
  have h : sgr [[38], [5], [0]] = some (str "Set foreground color to custom value. ") := by
    simp [sgr, sgrLoop, SgrAcc.fg, sgrFinish, str]
    decide
  refine ⟨h, ?_⟩
  rw [h]
  decide

lemma sgrLoop_step (acc : SgrAcc) (q : List Nat) (rest : List (List Nat))
    (h38 : q.headD 0 ≠ 38) (h48 : q.headD 0 ≠ 48) :
    sgrLoop acc (q :: rest) = some (str "Reset all modes (styles and colours)") ∨
    ∃ acc2, sgrLoop acc (q :: rest) = sgrLoop acc2 rest := by
  rw [sgrLoop.eq_def]
  by_cases h0 : q.headD 0 = 0
  · simp only [h0]
    exact Or.inl rfl
  · simp only [h0, h38, h48, if_false, if_neg]
    exact Or.inr ⟨_, rfl⟩

lemma sgrLoop_reset (z : List Nat) (hz : z.headD 0 = 0) :
    ∀ (pre : List (List Nat)), (∀ q ∈ pre, q.headD 0 ≠ 38 ∧ q.headD 0 ≠ 48) →
    ∀ (acc : SgrAcc) (post : List (List Nat)),
      sgrLoop acc (pre ++ z :: post) =
        some (str "Reset all modes (styles and colours)") := by
  intro pre
  induction pre with
  | nil =>
    intro _ acc post
    rw [List.nil_append, sgrLoop.eq_def]
    simp only [hz]
    rfl
  | cons q pre ih =>
    intro h acc post
    have hq := h q (List.mem_cons_self _ _)
    rw [List.cons_append]
    rcases sgrLoop_step acc q (pre ++ z :: post) hq.1 hq.2 with h1 | ⟨acc2, h2⟩
    · exact h1
    · rw [h2]
      exact ih (fun r hr => h r (List.mem_cons_of_mem _ hr)) acc2 post

/-- C9 (amended): for every SGR parameter list in which some parameter's
first value is 0 and no earlier parameter has first value 38 or 48
(whose custom-colour argument consumption can swallow the 0), the
tooltip is exactly "Reset all modes (styles and colours)": everything
after the 0 and everything accumulated before it is discarded. -/
theorem C9_sgr_zero_resets (pre post : List (List Nat)) (z : List Nat)
    (hz : z.head? = some 0)
    (hpre : ∀ q ∈ pre, q.headD 0 ≠ 38 ∧ q.headD 0 ≠ 48) :
    sgr (pre ++ z :: post) = some (str "Reset all modes (styles and colours)") := by
  have hz0 : z.headD 0 = 0 := by
    cases z with
    | nil => simp at hz
    | cons a t => simp at hz; simp [hz]
  exact sgrLoop_reset z hz0 pre hpre _ post

/-- C9 witness: the amended theorem applied to the concrete parameter
list `[[1], [0], [31]]` (bold, reset, red). -/
theorem C9_witness :
    ([0] : List Nat).head? = some 0 ∧
    sgr ([[1]] ++ [0] :: [[31]]) = some (str "Reset all modes (styles and colours)") :=
  ⟨by decide, C9_sgr_zero_resets [[1]] [[31]] [0] (by decide) (by decide)⟩
